import Mathlib

/-!
# Shallow embedding of `advanced-vector/vector.h`

The C++ source defines `RawMemory<T>` (a raw block of `capacity_` element
slots, none of which hold constructed objects) and `Vector<T>` (a `RawMemory`
plus `size_`, where slots `[0, size_)` are intended to hold live elements).

We model a block of raw memory as a `List (Option α)` whose length is the
block's capacity: `some a` is a slot holding a constructed element of value
`a`, `none` is an uninitialized (or destroyed) slot.  A `Vector<T>` is a
block together with `size_`.  C++ memory primitives become:

* `operator new` for `n` slots (`RawMemory::Allocate`): `List.replicate n none`;
* placement-new of value `a` at slot `i`: `List.set i (some a)`;
* `std::destroy_n(buf + i, n)`: the slots `[i, i+n)` become `none`;
* `std::uninitialized_copy_n / uninitialized_move_n / std::move /
  std::move_backward` over non-overlapping-in-the-dangerous-direction ranges:
  a block write of the source values at the destination offset
  (`blockWrite`).  At the level of observable element values, moving and
  copying coincide (a moved-from slot's unspecified value is only ever
  destroyed, never read, in this code), which is why `TransferDataForEmplace`'s
  `if constexpr` collapses to a single function here.

Every `def` follows the statement sequence of the corresponding C++ member
function; comments cite the source lines.
-/

namespace AdvVec

/-- `Vector<T>`: `data` is the owned `RawMemory` block (length = `capacity_`),
`size` is `size_`. -/
structure Vec (α : Type) where
  data : List (Option α)
  size : Nat
  deriving Repr, DecidableEq

variable {α : Type}

/-- `Vector::Capacity()` — the length of the owned block. -/
def capacity (v : Vec α) : Nat := v.data.length

/-- The observable element sequence: the slots `[0, size_)`. -/
def elems (v : Vec α) : List (Option α) := v.data.take v.size

/-- Write the values `vals` into `dst` starting at offset `i`
(slots outside `[i, i + vals.length)` keep their contents).  This is the
value-level effect of `uninitialized_copy_n`/`uninitialized_move_n`/
`std::move`/`std::move_backward` once their source values are given. -/
def blockWrite (dst : List β) (i : Nat) (vals : List β) : List β :=
  dst.take i ++ vals ++ dst.drop (i + vals.length)

/-- `std::destroy_n(buf + i, n)`: slots `[i, i+n)` become uninitialized. -/
def destroyN (buf : List (Option α)) (i n : Nat) : List (Option α) :=
  blockWrite buf i (List.replicate n none)

/-- The class invariant of `Vector<T>`: `size_ ≤ capacity_` and the slots
`[0, size_)` hold live (constructed) elements. -/
def Inv (v : Vec α) : Prop :=
  v.size ≤ capacity v ∧ ∀ o ∈ elems v, o.isSome = true

instance (v : Vec α) [DecidableEq α] : Decidable (Inv v) := by
  unfold Inv; infer_instance

/-- `Vector::Reserve(new_capacity)` (vector.h:149-168): no-op when
`new_capacity ≤ data_.Capacity()`; otherwise allocate a new block, transfer
the `size_` live elements into it, destroy the originals (the old block is
then discarded by the swap), and adopt the new block. -/
def Reserve (v : Vec α) (new_capacity : Nat) : Vec α :=
  if new_capacity ≤ v.data.length then v
  else
    -- RawMemory<T> new_data(new_capacity);
    -- uninitialized_move_n / uninitialized_copy_n(data_, size_, new_data);
    -- std::destroy_n(data_.GetAddress(), size_);  data_.Swap(new_data);
    { data := blockWrite (List.replicate new_capacity none) 0 (v.data.take v.size)
      size := v.size }

/-- `Vector::Resize(new_size)` (vector.h:175-185).  NOTE: the growing branch
value-constructs `new_size - size_` elements at `data_.GetAddress()` — the
START of the block — exactly as the source does (not at
`data_.GetAddress() + size_`). -/
def Resize [Inhabited α] (v : Vec α) (new_size : Nat) : Vec α :=
  if v.size < new_size then
    let v1 := Reserve v new_size
    -- std::uninitialized_value_construct_n(data_.GetAddress(), new_size - size_);
    { data := blockWrite v1.data 0 (List.replicate (new_size - v.size) (some default))
      size := new_size }
  else
    -- std::destroy_n(data_.GetAddress() + new_size, size_ - new_size);
    { data := destroyN v.data new_size (v.size - new_size)
      size := new_size }

/-- `Vector::PopBack()` (vector.h:187-191): destroy the last live element,
decrement `size_`. -/
def PopBack (v : Vec α) : Vec α :=
  { data := destroyN v.data (v.size - 1) 1
    size := v.size - 1 }

/-- `Vector::EmplaceBack(args...)` (vector.h:201-214), with the element to be
constructed given by its value `a`.  When `size_ == Capacity()`: allocate
`size_ == 0 ? 1 : 2 * size_` slots, construct the new element at slot `size_`
of the NEW block first, transfer the old elements, destroy the originals,
swap.  Otherwise construct in place at slot `size_`.  Either way `size_`
is incremented. -/
def EmplaceBack (v : Vec α) (a : α) : Vec α :=
  if v.size = v.data.length then
    let nd0 : List (Option α) := List.replicate (if v.size = 0 then 1 else 2 * v.size) none
    let nd1 := nd0.set v.size (some a)                    -- new (new_data + size_) T(...)
    let nd2 := blockWrite nd1 0 (v.data.take v.size)      -- TransferDataForEmplace(data_, size_, new_data)
    -- std::destroy_n(data_, size_); data_.Swap(new_data);
    { data := nd2, size := v.size + 1 }
  else
    { data := v.data.set v.size (some a), size := v.size + 1 }

/-- `Vector::PushBack` (vector.h:193-199): delegates to `EmplaceBack`. -/
def PushBack (v : Vec α) (a : α) : Vec α := EmplaceBack v a

/-- `Vector::EmplaceBack`'s growth branch (vector.h:204-209) as a trace of the
machine state after each successive statement.  Each entry is the pair
(state of `*this`, state of the `new_data` block):

0. after `RawMemory<T> new_data(size_ == 0 ? 1 : 2 * size_);`
1. after `new (new_data + size_) T(std::forward<Args>(value)...);`
2. after `TransferDataForEmplace(data_.GetAddress(), size_, new_data.GetAddress());`
3. after `std::destroy_n(data_.GetAddress(), size_);`
4. after `data_.Swap(new_data);`
5. after the `size_++` in `return data_[size_++];`

If the construction of the new element (statement 1) throws, only states
0-1 of `*this` have been reached. -/
def EmplaceBackGrowTrace (v : Vec α) (a : α) : List (Vec α × List (Option α)) :=
  let nd0 : List (Option α) := List.replicate (if v.size = 0 then 1 else 2 * v.size) none
  let nd1 := nd0.set v.size (some a)
  let nd2 := blockWrite nd1 0 (v.data.take v.size)
  let destroyed := destroyN v.data 0 v.size
  [ (v, nd0)
  , (v, nd1)
  , (v, nd2)
  , ({ data := destroyed, size := v.size }, nd2)
  , ({ data := nd2, size := v.size }, destroyed)
  , ({ data := nd2, size := v.size + 1 }, destroyed) ]

/-- `Vector::Emplace(pos, args...)` (vector.h:216-242), generalized over how
the element-to-insert is produced: `arg` maps the state of the `data_` block
AT THE MOMENT the C++ code evaluates `T(std::forward<Args>(args)...)` to the
constructed value.  This captures that the constructor arguments may alias
slots of the vector itself.  `pos` is `pos_index = distance(cbegin(), pos)`.

* Growth path (`size_ == data_.Capacity()`): the new element is constructed
  from the ORIGINAL block (before any transfer), directly at slot `pos` of
  the new block; then the prefix `[0, pos)` and suffix `[pos, size_)` are
  transferred around it.
* In-place path, `pos ≠ cend()`: move-construct the last element into slot
  `size_`, `move_backward` the range `[pos, size_-1)` into `[pos+1, size_)`,
  and only THEN build the temporary `T(args...)` — reading the
  already-shifted block — and move-assign it into slot `pos`.
* In-place path, `pos == cend()`: construct directly at slot `pos`.

Returns `(new state, pos)` — the result iterator is `begin() + pos_index`. -/
def EmplaceArg (v : Vec α) (pos : Nat) (arg : List (Option α) → Option α) :
    Vec α × Nat :=
  if v.size = v.data.length then
    let nd0 : List (Option α) := List.replicate (if v.size = 0 then 1 else 2 * v.size) none
    let nd1 := nd0.set pos (arg v.data)                       -- new (new_data + pos_index) T(args...)
    let nd2 := blockWrite nd1 0 (v.data.take pos)             -- transfer prefix [0, pos)
    let nd3 := blockWrite nd2 (pos + 1)
        ((v.data.drop pos).take (v.size - pos))               -- transfer suffix [pos, size_), dist_to_end = size_ - pos
    -- std::destroy_n(data_, size_); data_.Swap(new_data); ++size_;
    ({ data := nd3, size := v.size + 1 }, pos)
  else
    if pos ≠ v.size then
      let d1 := v.data.set v.size (v.data.getD (v.size - 1) none) -- new (end()) T(forward<T>(*(end()-1)))
      let d2 := blockWrite d1 (pos + 1)
          ((d1.drop pos).take (v.size - 1 - pos))             -- move_backward(begin()+pos, end()-1, end())
      let d3 := d2.set pos (arg d2)                           -- data_[pos_index] = T(forward<Args>(args)...)
      ({ data := d3, size := v.size + 1 }, pos)
    else
      ({ data := v.data.set pos (arg v.data), size := v.size + 1 }, pos)

/-- `Vector::Emplace` with a plain (non-aliasing) value argument: the
constructed temporary has value `a` no matter when it is built. -/
def Emplace (v : Vec α) (pos : Nat) (a : α) : Vec α × Nat :=
  EmplaceArg v pos (fun _ => some a)

/-- `Vector::Emplace` whose constructor argument is a reference to the
vector's own element at index `j` (`v[j]`): the temporary reads slot `j` of
the block as it is when `T(args...)` runs. -/
def EmplaceSelfRef (v : Vec α) (pos : Nat) (j : Nat) : Vec α × Nat :=
  EmplaceArg v pos (fun d => d.getD j none)

/-- The state of the `data_` block at the moment the in-place branch of
`Emplace` evaluates `T(std::forward<Args>(args)...)`: the last element has
been move-constructed into slot `size_` and the range `[pos, size_-1)` has
been shifted into `[pos+1, size_)`. -/
def shiftedBlock (v : Vec α) (pos : Nat) : List (Option α) :=
  let d1 := v.data.set v.size (v.data.getD (v.size - 1) none)
  blockWrite d1 (pos + 1) ((d1.drop pos).take (v.size - 1 - pos))

/-- `Vector::Insert(pos, value)` (vector.h:251-256): delegates to `Emplace`. -/
def Insert (v : Vec α) (pos : Nat) (a : α) : Vec α × Nat := Emplace v pos a

/-- `Vector::Erase(pos)` (vector.h:244-249): `std::move(begin()+pos+1, end(),
begin()+pos)` shifts the tail left by one, then `PopBack()` destroys the
now-duplicate last slot.  Returns `(new state, pos)` — the result iterator is
`begin() + pos_index`. -/
def Erase (v : Vec α) (pos : Nat) : Vec α × Nat :=
  let d := blockWrite v.data pos ((v.data.drop (pos + 1)).take (v.size - (pos + 1)))
  (PopBack { data := d, size := v.size }, pos)

/-- `Vector::operator=(const Vector&)` (vector.h:267-291), for `this ≠ &rhs`.
When `rhs.size_ > data_.Capacity()`: copy-and-swap (the copy constructor
allocates `rhs.size_` slots and copies `rhs.size_` elements).  Otherwise the
storage is reused: element-wise assignment over `[0, min(size_, rhs.size_))`,
then — NOTE, exactly as the source does — if `size_ < rhs.size_`,
`uninitialized_copy_n(rhs.data_.GetAddress(), rhs.size_ - size_,
data_.GetAddress() + size_)` copies `rhs.size_ - size_` elements FROM THE
START of `rhs` into the trailing slots; else the own extra elements are
destroyed.  Finally `size_ = rhs.size_`. -/
def CopyAssign (lhs rhs : Vec α) : Vec α :=
  if rhs.size > lhs.data.length then
    -- Vector rhs_copy(rhs); Swap(rhs_copy);
    { data := blockWrite (List.replicate rhs.size none) 0 (rhs.data.take rhs.size)
      size := rhs.size }
  else
    let d := blockWrite lhs.data 0 (rhs.data.take (min lhs.size rhs.size))
    if lhs.size < rhs.size then
      { data := blockWrite d lhs.size (rhs.data.take (rhs.size - lhs.size))
        size := rhs.size }
    else
      { data := destroyN d rhs.size (lhs.size - rhs.size)
        size := rhs.size }

/-- `Vector::Vector(Vector&&)` (vector.h:135-139): steal the block and size,
leaving the source with a null zero-capacity block and `size_ == 0`.  Result:
(the new vector, the moved-from source). -/
def MoveCtor (other : Vec α) : Vec α × Vec α :=
  ({ data := other.data, size := other.size }, { data := [], size := 0 })

/-- `Vector::operator=(Vector&&)` (vector.h:293-300), for `this ≠ &rhs`:
`RawMemory`'s move assignment deallocates the own block and steals `rhs`'s;
`rhs.size_ = 0`.  Result: (the assigned-to vector, the moved-from source). -/
def MoveAssign (lhs rhs : Vec α) : Vec α × Vec α :=
  ({ data := rhs.data, size := rhs.size }, { data := [], size := 0 })

end AdvVec

/-! ## Helper lemmas -/

namespace AdvVec

variable {α β : Type}

theorem length_blockWrite {dst : List β} {i : Nat} {vals : List β}
    (h : i + vals.length ≤ dst.length) :
    (blockWrite dst i vals).length = dst.length := by
  simp [blockWrite]; omega

theorem getElem?_blockWrite {dst : List β} {i : Nat} {vals : List β} (n : Nat)
    (h : i + vals.length ≤ dst.length) :
    (blockWrite dst i vals)[n]? =
      if n < i then dst[n]?
      else if n < i + vals.length then vals[n - i]?
      else dst[n]? := by
  simp only [blockWrite, List.getElem?_append, List.length_take, List.getElem?_take,
    List.getElem?_drop, List.length_append]
  split_ifs <;> first | rfl | omega | (congr 1; omega)

theorem size_Emplace (v : Vec α) (pos : Nat) (a : α) :
    (Emplace v pos a).1.size = v.size + 1 := by
  simp only [Emplace, EmplaceArg]
  split_ifs <;> rfl

theorem elems_Erase (v : Vec α) (pos : Nat) (h1 : pos < v.size)
    (h2 : v.size ≤ v.data.length) :
    elems (Erase v pos).1 = (elems v).take pos ++ (elems v).drop (pos + 1) := by
  apply List.ext_getElem?
  intro n
  have hV : ((v.data.drop (pos + 1)).take (v.size - (pos + 1))).length = v.size - (pos+1) := by
    simp; omega
  have hbw : pos + ((v.data.drop (pos + 1)).take (v.size - (pos + 1))).length ≤ v.data.length := by
    rw [hV]; omega
  simp only [Erase, PopBack, destroyN, elems, List.getElem?_take, List.getElem?_append,
    List.getElem?_drop, List.length_take, List.length_drop]
  rw [getElem?_blockWrite _ (by rw [length_blockWrite hbw]; simp; omega)]
  rw [getElem?_blockWrite _ hbw]
  simp only [List.getElem?_replicate, List.length_replicate, List.getElem?_take,
    List.getElem?_drop, hV]
  split_ifs <;> first | rfl | omega | (congr 1; omega) |
    (rw [List.getElem?_eq_none (by omega)]) | simp | skip

set_option maxHeartbeats 2000000 in
theorem elems_EmplaceArg_grow (v : Vec α) (pos : Nat) (arg : List (Option α) → Option α)
    (hgrow : v.size = v.data.length) (h1 : pos ≤ v.size) :
    elems (EmplaceArg v pos arg).1 = (elems v).take pos ++ arg v.data :: (elems v).drop pos := by
  by_cases hz : v.size = 0
  · obtain rfl : pos = 0 := by omega
    have hd : v.data = [] := List.length_eq_zero.mp (by omega)
    simp [EmplaceArg, elems, blockWrite, hd, hz]
  · apply List.ext_getElem?
    intro n
    have hP : (v.data.take pos).length = pos := by simp; omega
    have hS : ((v.data.drop pos).take (v.size - pos)).length = v.size - pos := by simp; omega
    simp only [EmplaceArg]
    rw [if_pos hgrow, if_neg hz]
    simp only [elems, List.getElem?_take]
    rw [getElem?_blockWrite _ (by rw [length_blockWrite (by simp [hP]; omega)] <;> simp [hS] <;> omega)]
    rw [getElem?_blockWrite _ (by simp [hP]; omega)]
    simp only [List.getElem?_set, List.getElem?_replicate, List.length_replicate,
      List.getElem?_take, List.getElem?_drop, List.getElem?_append, List.getElem?_cons,
      List.length_take, List.length_drop, hP, hS, List.length_replicate]
    split_ifs <;> first | rfl | omega | (congr 1; omega)


set_option maxHeartbeats 2000000 in
theorem elems_EmplaceArg_inplace (v : Vec α) (pos : Nat)
    (arg : List (Option α) → Option α) (h1 : pos < v.size) (h2 : v.size < v.data.length) :
    elems (EmplaceArg v pos arg).1
      = (elems v).take pos ++ arg (shiftedBlock v pos) :: (elems v).drop pos := by
  apply List.ext_getElem?
  intro n
  have hd1 : (v.data.set v.size (v.data.getD (v.size - 1) none)).length = v.data.length := by
    simp
  have hV : (((v.data.set v.size (v.data.getD (v.size - 1) none)).drop pos).take
      (v.size - 1 - pos)).length = v.size - 1 - pos := by
    simp; omega
  have hlast : some (v.data.getD (v.size - 1) none) = v.data[v.size - 1]? := by
    rw [List.getD_eq_getElem?_getD, List.getElem?_eq_getElem (by omega)]
    simp
  simp only [EmplaceArg, shiftedBlock]
  rw [if_neg (by omega), if_pos (by omega : pos ≠ v.size)]
  simp only [elems, List.getElem?_take]
  rw [List.getElem?_set]
  rw [getElem?_blockWrite n ?hside]
  case hside => rw [hV, hd1]; omega
  rw [length_blockWrite ?hside2]
  case hside2 => rw [hV, hd1]; omega
  simp only [List.getElem?_set, hd1, hV, List.getElem?_take, List.getElem?_drop,
    List.getElem?_append, List.getElem?_cons, List.length_take, List.length_drop,
    List.length_set]
  split_ifs <;> first | rfl | omega | (congr 1; omega) | (rw [hlast]; congr 1; omega)

theorem elems_EmplaceArg_atEnd (v : Vec α) (pos : Nat)
    (arg : List (Option α) → Option α) (h1 : pos = v.size) (h2 : v.size < v.data.length) :
    elems (EmplaceArg v pos arg).1
      = (elems v).take pos ++ arg v.data :: (elems v).drop pos := by
  subst h1
  apply List.ext_getElem?
  intro n
  simp only [EmplaceArg]
  rw [if_neg (by omega), if_neg (by simp)]
  simp only [elems, List.getElem?_take, List.getElem?_set, List.getElem?_append,
    List.getElem?_cons, List.length_take, List.length_drop, List.getElem?_drop]
  split_ifs <;> first | rfl | omega | (congr 1; omega)

end AdvVec

namespace AdvVec

variable {α β : Type}

theorem size_EmplaceBack (v : Vec α) (a : α) : (EmplaceBack v a).size = v.size + 1 := by
  unfold EmplaceBack; split_ifs <;> rfl

theorem capacity_EmplaceBack (v : Vec α) (a : α) :
    capacity (EmplaceBack v a)
      = if v.size = v.data.length then (if v.size = 0 then 1 else 2 * v.size)
        else v.data.length := by
  unfold EmplaceBack capacity
  split_ifs with hg hz
  · simp [blockWrite, hz]
  · simp [blockWrite]; omega
  · simp

theorem size_Reserve (v : Vec α) (c : Nat) : (Reserve v c).size = v.size := by
  unfold Reserve; split_ifs <;> rfl

theorem Reserve_of_le (v : Vec α) (c : Nat) (h : c ≤ capacity v) : Reserve v c = v := by
  unfold Reserve
  simp only [capacity] at h
  rw [if_pos h]

theorem capacity_Reserve_of_gt (v : Vec α) (c : Nat) (h1 : capacity v < c)
    (h2 : v.size ≤ capacity v) : capacity (Reserve v c) = c := by
  unfold Reserve
  simp only [capacity] at *
  rw [if_neg (by omega)]
  simp [blockWrite]; omega

theorem elems_Reserve (v : Vec α) (c : Nat) (h2 : v.size ≤ capacity v) :
    elems (Reserve v c) = elems v := by
  unfold Reserve
  simp only [capacity] at h2
  split_ifs with h
  · rfl
  · apply List.ext_getElem?
    intro n
    simp only [elems, blockWrite, List.getElem?_take, List.getElem?_append,
      List.getElem?_replicate, List.getElem?_drop, List.length_take, List.length_append,
      List.length_replicate, List.take_zero, List.length_nil, List.nil_append]
    split_ifs <;> first | rfl | omega | (congr 1; omega) |
      (rw [List.getElem?_eq_none (by omega)])

end AdvVec

namespace AdvVec

theorem capacity_EmplaceArg (v : Vec α) (pos : Nat) (arg : List (Option α) → Option α)
    (h1 : pos ≤ v.size) (h2 : v.size ≤ v.data.length) :
    capacity (EmplaceArg v pos arg).1
      = if v.size = v.data.length then (if v.size = 0 then 1 else 2 * v.size)
        else v.data.length := by
  unfold EmplaceArg capacity
  split_ifs with hg hz hp hz' <;> simp [blockWrite] <;> omega

theorem capacity_Emplace (v : Vec α) (pos : Nat) (a : α)
    (h1 : pos ≤ v.size) (h2 : v.size ≤ v.data.length) :
    capacity (Emplace v pos a).1
      = if v.size = v.data.length then (if v.size = 0 then 1 else 2 * v.size)
        else v.data.length :=
  capacity_EmplaceArg v pos _ h1 h2

theorem size_le_capacity_Emplace (v : Vec α) (pos : Nat) (a : α)
    (h1 : pos ≤ v.size) (h2 : v.size ≤ v.data.length) :
    (Emplace v pos a).1.size ≤ capacity (Emplace v pos a).1 := by
  rw [size_Emplace, capacity_Emplace v pos a h1 h2]
  split_ifs <;> omega

theorem elems_Emplace (v : Vec α) (pos : Nat) (a : α) (h1 : pos ≤ v.size)
    (h2 : v.size ≤ v.data.length) :
    elems (Emplace v pos a).1 = (elems v).take pos ++ some a :: (elems v).drop pos := by
  by_cases hg : v.size = v.data.length
  · simpa [Emplace] using elems_EmplaceArg_grow v pos (fun _ => some a) hg h1
  · rcases Nat.lt_or_ge pos v.size with h | h
    · simpa [Emplace] using elems_EmplaceArg_inplace v pos (fun _ => some a) h (by omega)
    · simpa [Emplace] using
        elems_EmplaceArg_atEnd v pos (fun _ => some a) (by omega) (by omega)

theorem insert_then_remove (E : List β) (pos : Nat) (x : β) (h : pos ≤ E.length) :
    (E.take pos ++ x :: E.drop pos).take pos
      ++ (E.take pos ++ x :: E.drop pos).drop (pos + 1) = E := by
  have hA : (E.take pos).length = pos := by simp; omega
  rw [List.take_append_eq_append_take, List.drop_append_eq_append_drop, hA]
  simp [List.take_take, List.drop_take, show pos + 1 - pos = 1 from by omega]

theorem shiftedBlock_getElem?_lt (v : Vec α) (pos j : Nat) (hj : j < pos)
    (h1 : pos < v.size) (h2 : v.size < v.data.length) :
    (shiftedBlock v pos)[j]? = v.data[j]? := by
  simp only [shiftedBlock]
  rw [getElem?_blockWrite j ?hside]
  case hside => simp; omega
  rw [if_pos (by omega), List.getElem?_set, if_neg (by omega)]

theorem elems_EmplaceSelfRef (v : Vec α) (pos j : Nat) (hj : j < pos)
    (h1 : pos < v.size) (h2 : v.size < v.data.length) :
    elems (EmplaceSelfRef v pos j).1
      = (elems v).take pos ++ v.data.getD j none :: (elems v).drop pos := by
  have h := elems_EmplaceArg_inplace v pos (fun d => d.getD j none) h1 h2
  have hval : (shiftedBlock v pos).getD j none = v.data.getD j none := by
    rw [List.getD_eq_getElem?_getD, List.getD_eq_getElem?_getD,
      shiftedBlock_getElem?_lt v pos j hj h1 h2]
  simp only [EmplaceSelfRef]
  rw [h]
  show (elems v).take pos ++ (shiftedBlock v pos).getD j none :: (elems v).drop pos
      = (elems v).take pos ++ v.data.getD j none :: (elems v).drop pos
  rw [hval]

theorem getD_data_Emplace (v : Vec α) (pos : Nat) (a : α) (h1 : pos ≤ v.size)
    (h2 : v.size ≤ v.data.length) :
    ((Emplace v pos a).1).data.getD pos none = some a := by
  have he := elems_Emplace v pos a h1 h2
  have hE : (elems v).length = v.size := by simp [elems]; omega
  have hlt : pos < (Emplace v pos a).1.size := by rw [size_Emplace]; omega
  have h3 : (elems (Emplace v pos a).1)[pos]? = some (some a) := by
    rw [he, List.getElem?_append, if_neg (by simp)]
    have h0 : pos - ((elems v).take pos).length = 0 := by simp [hE]; omega
    rw [h0]
    simp
  rw [elems, List.getElem?_take, if_pos hlt] at h3
  rw [List.getD_eq_getElem?_getD, h3]
  rfl

end AdvVec

/-! ## Claim theorems -/

namespace AdvVec

theorem size_Erase (v : Vec α) (pos : Nat) : (Erase v pos).1.size = v.size - 1 := rfl

theorem snd_Emplace (v : Vec α) (pos : Nat) (a : α) : (Emplace v pos a).2 = pos := by
  simp only [Emplace, EmplaceArg]
  split_ifs <;> rfl

/-- Claim C1: copy assignment into a vector whose capacity can hold the source
is claimed to copy-construct the extra source elements `rhs[v.size, rhs.size)`
and end with `v` equal to `rhs` element-wise.  The code instead copies
`rhs.size - v.size` elements from the START of `rhs`
(`rhs.data_.GetAddress()`, not `rhs.data_.GetAddress() + size_`): for
`v = [1]` with capacity 2 and `rhs = [10, 20]`, the result is `[10, 10]`,
not `[10, 20]`. -/
theorem claim_C1_copy_assign_bug :
    CopyAssign (⟨[some 1, none], 1⟩ : Vec Nat) ⟨[some 10, some 20], 2⟩
      = ⟨[some 10, some 10], 2⟩ ∧
    elems (CopyAssign (⟨[some 1, none], 1⟩ : Vec Nat) ⟨[some 10, some 20], 2⟩)
      ≠ elems (⟨[some 10, some 20], 2⟩ : Vec Nat) := by decide

/-- Claim C2: `Resize` to a larger size is claimed to default-construct
exactly the newly exposed slots `[oldSize, newSize)` and leave `[0, oldSize)`
unchanged.  The code value-constructs the `newSize - oldSize` elements at
`data_.GetAddress()` — the start of the block: for `v = [5]`, `Resize(2)`
overwrites slot 0 with a default-constructed element and leaves slot 1
uninitialized, giving `[0, ⊥]` instead of the claimed `[5, 0]`. -/
theorem claim_C2_resize_bug :
    Resize (⟨[some 5], 1⟩ : Vec Nat) 2 = ⟨[some 0, none], 2⟩ ∧
    elems (Resize (⟨[some 5], 1⟩ : Vec Nat) 2) ≠ [some 5, some 0] := by decide

/-- Claim C9: every public operation is claimed to preserve the invariant
`size ≤ capacity` with slots `[0, size)` holding live elements.  `Resize`
growing a non-empty vector violates the liveness half: from the valid state
`[5]`, `Resize(2)` yields `size = 2` with slot 1 uninitialized. -/
theorem claim_C9_invariant_broken_by_resize :
    Inv (⟨[some 5], 1⟩ : Vec Nat) ∧ ¬ Inv (Resize (⟨[some 5], 1⟩ : Vec Nat) 2) := by
  decide

/-- Claim C3: each `PushBack` increases `size` by exactly 1; `capacity` never
decreases, and it changes exactly when `size == capacity` held before the
call, in which case the new capacity is `max 1 (2 * oldCapacity)`; starting
from a default-constructed empty vector, five successive pushes yield
capacities 1, 2, 4, 4, 8 and sizes 1, 2, 3, 4, 5. -/
theorem claim_C3_pushBack_growth (v : Vec α) (a : α) :
    (PushBack v a).size = v.size + 1 ∧
    capacity v ≤ capacity (PushBack v a) ∧
    (v.size = capacity v → capacity (PushBack v a) = max 1 (2 * capacity v)) ∧
    (v.size ≠ capacity v → capacity (PushBack v a) = capacity v) ∧
    ((capacity (PushBack (⟨[], 0⟩ : Vec Nat) 1),
      capacity (PushBack (PushBack (⟨[], 0⟩ : Vec Nat) 1) 2),
      capacity (PushBack (PushBack (PushBack (⟨[], 0⟩ : Vec Nat) 1) 2) 3),
      capacity (PushBack (PushBack (PushBack (PushBack (⟨[], 0⟩ : Vec Nat) 1) 2) 3) 4),
      capacity (PushBack (PushBack (PushBack (PushBack
        (PushBack (⟨[], 0⟩ : Vec Nat) 1) 2) 3) 4) 5)) = (1, 2, 4, 4, 8) ∧
     ((PushBack (⟨[], 0⟩ : Vec Nat) 1).size,
      (PushBack (PushBack (⟨[], 0⟩ : Vec Nat) 1) 2).size,
      (PushBack (PushBack (PushBack (⟨[], 0⟩ : Vec Nat) 1) 2) 3).size,
      (PushBack (PushBack (PushBack (PushBack (⟨[], 0⟩ : Vec Nat) 1) 2) 3) 4).size,
      (PushBack (PushBack (PushBack (PushBack
        (PushBack (⟨[], 0⟩ : Vec Nat) 1) 2) 3) 4) 5).size) = (1, 2, 3, 4, 5)) := by
  refine ⟨size_EmplaceBack v a, ?_, ?_, ?_, by decide⟩
  · simp only [PushBack]
    rw [capacity_EmplaceBack]
    simp only [capacity]
    split_ifs <;> omega
  · intro h
    simp only [capacity] at h
    simp only [PushBack]
    rw [capacity_EmplaceBack, if_pos h]
    simp only [capacity]
    split_ifs <;> omega
  · intro h
    simp only [capacity] at h
    simp only [PushBack]
    rw [capacity_EmplaceBack, if_neg h]
    rfl

/-- Witness for C3: pushing onto a full vector (size 1 = capacity 1) doubles
the capacity to `max 1 (2*1) = 2`; pushing onto a non-full vector (size 1,
capacity 2) keeps capacity 2. -/
theorem claim_C3_pushBack_growth_witness :
    capacity (PushBack (⟨[some 7], 1⟩ : Vec Nat) 9)
      = max 1 (2 * capacity (⟨[some 7], 1⟩ : Vec Nat)) ∧
    capacity (PushBack (⟨[some 7, none], 1⟩ : Vec Nat) 9)
      = capacity (⟨[some 7, none], 1⟩ : Vec Nat) :=
  ⟨(claim_C3_pushBack_growth (⟨[some 7], 1⟩ : Vec Nat) 9).2.2.1 (by decide),
   (claim_C3_pushBack_growth (⟨[some 7, none], 1⟩ : Vec Nat) 9).2.2.2.1 (by decide)⟩

/-- Claim C4: `Reserve c` with `c ≤ capacity` changes nothing; with
`c > capacity` it makes the capacity exactly `c`, keeps the size, and
preserves the element sequence. -/
theorem claim_C4_reserve (v : Vec α) (c : Nat) (hinv : v.size ≤ capacity v) :
    (c ≤ capacity v → Reserve v c = v) ∧
    (capacity v < c → capacity (Reserve v c) = c ∧ (Reserve v c).size = v.size ∧
      elems (Reserve v c) = elems v) :=
  ⟨fun h => Reserve_of_le v c h,
   fun h => ⟨capacity_Reserve_of_gt v c h hinv, size_Reserve v c, elems_Reserve v c hinv⟩⟩

/-- Witness for C4 on `[1, 2]` (size 2 = capacity 2): `Reserve 1` is the
identity and `Reserve 5` yields capacity 5 with the elements preserved. -/
theorem claim_C4_reserve_witness :
    Reserve (⟨[some 1, some 2], 2⟩ : Vec Nat) 1 = ⟨[some 1, some 2], 2⟩ ∧
    capacity (Reserve (⟨[some 1, some 2], 2⟩ : Vec Nat) 5) = 5 ∧
    elems (Reserve (⟨[some 1, some 2], 2⟩ : Vec Nat) 5)
      = elems (⟨[some 1, some 2], 2⟩ : Vec Nat) :=
  ⟨(claim_C4_reserve (⟨[some 1, some 2], 2⟩ : Vec Nat) 1 (by decide)).1 (by decide),
   ((claim_C4_reserve (⟨[some 1, some 2], 2⟩ : Vec Nat) 5 (by decide)).2 (by decide)).1,
   ((claim_C4_reserve (⟨[some 1, some 2], 2⟩ : Vec Nat) 5 (by decide)).2 (by decide)).2.2⟩

end AdvVec

namespace AdvVec

/-- Claim C5: for any valid position `pos ≤ size`, inserting a value at `pos`
and then erasing at `pos` restores the original element sequence and size. -/
theorem claim_C5_insert_erase_roundtrip (v : Vec α) (pos : Nat) (a : α)
    (h1 : pos ≤ v.size) (h2 : v.size ≤ capacity v) :
    elems (Erase (Insert v pos a).1 pos).1 = elems v ∧
    (Erase (Insert v pos a).1 pos).1.size = v.size := by
  have h2' : v.size ≤ v.data.length := h2
  have hs : (Insert v pos a).1.size = v.size + 1 := size_Emplace v pos a
  have hc : (Insert v pos a).1.size ≤ (Insert v pos a).1.data.length :=
    size_le_capacity_Emplace v pos a h1 h2'
  have he : elems (Insert v pos a).1 = (elems v).take pos ++ some a :: (elems v).drop pos :=
    elems_Emplace v pos a h1 h2'
  constructor
  · rw [elems_Erase _ pos (by omega) (by omega), he]
    exact insert_then_remove (elems v) pos (some a) (by simp [elems]; omega)
  · rw [size_Erase, hs]
    omega

/-- Witness for C5, the spec's concrete scenario: `[10, 20, 30]` (full, so the
insert reallocates), insert 15 at index 1 giving `[10, 15, 20, 30]` with
size 4, then erase at index 1 restoring `[10, 20, 30]` with size 3. -/
theorem claim_C5_insert_erase_roundtrip_witness :
    elems (Insert (⟨[some 10, some 20, some 30], 3⟩ : Vec Nat) 1 15).1
      = [some 10, some 15, some 20, some 30] ∧
    (Insert (⟨[some 10, some 20, some 30], 3⟩ : Vec Nat) 1 15).1.size = 4 ∧
    elems (Erase (Insert (⟨[some 10, some 20, some 30], 3⟩ : Vec Nat) 1 15).1 1).1
      = [some 10, some 20, some 30] ∧
    (Erase (Insert (⟨[some 10, some 20, some 30], 3⟩ : Vec Nat) 1 15).1 1).1.size = 3 :=
  ⟨by decide, by decide,
   ((claim_C5_insert_erase_roundtrip (⟨[some 10, some 20, some 30], 3⟩ : Vec Nat) 1 15
      (by decide) (by decide)).1).trans (by decide),
   ((claim_C5_insert_erase_roundtrip (⟨[some 10, some 20, some 30], 3⟩ : Vec Nat) 1 15
      (by decide) (by decide)).2).trans (by decide)⟩

/-- Claim C6: move construction and move assignment (to a distinct object)
leave the source with size 0, and the destination holds exactly the source's
prior elements in order, with the source's prior capacity. -/
theorem claim_C6_move_semantics (v lhs : Vec α) :
    (MoveCtor v).2.size = 0 ∧
    elems (MoveCtor v).1 = elems v ∧
    (MoveCtor v).1.size = v.size ∧
    capacity (MoveCtor v).1 = capacity v ∧
    (MoveAssign lhs v).2.size = 0 ∧
    elems (MoveAssign lhs v).1 = elems v ∧
    (MoveAssign lhs v).1.size = v.size ∧
    capacity (MoveAssign lhs v).1 = capacity v :=
  ⟨rfl, rfl, rfl, rfl, rfl, rfl, rfl, rfl⟩

/-- Claim C7: when `size == capacity`, the growth branch of `EmplaceBack`
allocates a new block of `max 1 (2 * capacity)` slots and constructs the new
element first, directly in its final slot (`size`) of the new block, before
any old element is transferred; up to and including that construction the
original vector is untouched, so a construction failure leaves it fully
intact (strong guarantee); the completed statement sequence equals
`EmplaceBack`. -/
theorem claim_C7_emplaceBack_strong_guarantee (v : Vec α) (a : α)
    (hg : v.size = capacity v) :
    ((EmplaceBackGrowTrace v a).getD 1 (v, [])).2.length = max 1 (2 * capacity v) ∧
    ((EmplaceBackGrowTrace v a).getD 1 (v, [])).2.getD v.size none = some a ∧
    (∀ s ∈ (EmplaceBackGrowTrace v a).take 2, s.1 = v) ∧
    ((EmplaceBackGrowTrace v a).getD 5 (v, [])).1 = EmplaceBack v a := by
  have hg' : v.size = v.data.length := hg
  refine ⟨?_, ?_, ?_, ?_⟩
  · show ((List.replicate (if v.size = 0 then 1 else 2 * v.size) (none : Option α)).set
        v.size (some a)).length = max 1 (2 * capacity v)
    simp only [List.length_set, List.length_replicate, capacity]
    split_ifs <;> omega
  · show ((List.replicate (if v.size = 0 then 1 else 2 * v.size) (none : Option α)).set
        v.size (some a)).getD v.size none = some a
    rw [List.getD_eq_getElem?_getD, List.getElem?_set, if_pos rfl,
      if_pos (by simp only [List.length_replicate]; split_ifs <;> omega)]
    rfl
  · intro s hs
    simp only [EmplaceBackGrowTrace, List.take, List.mem_cons, List.not_mem_nil,
      or_false] at hs
    rcases hs with rfl | rfl <;> rfl
  · unfold EmplaceBackGrowTrace EmplaceBack
    rw [if_pos hg']
    rfl

/-- Witness for C7 on the full vector `[7]` (size 1 = capacity 1), appending
9: after the construction statement the new block has 2 slots and holds 9 at
slot 1 while the original vector is untouched. -/
theorem claim_C7_emplaceBack_strong_guarantee_witness :
    ((EmplaceBackGrowTrace (⟨[some 7], 1⟩ : Vec Nat) 9).getD 1 (⟨[some 7], 1⟩, [])).2.length
      = 2 ∧
    ((EmplaceBackGrowTrace (⟨[some 7], 1⟩ : Vec Nat) 9).getD 1
      (⟨[some 7], 1⟩, [])).2.getD 1 none = some 9 ∧
    ((EmplaceBackGrowTrace (⟨[some 7], 1⟩ : Vec Nat) 9).getD 5 (⟨[some 7], 1⟩, [])).1
      = EmplaceBack (⟨[some 7], 1⟩ : Vec Nat) 9 :=
  ⟨((claim_C7_emplaceBack_strong_guarantee (⟨[some 7], 1⟩ : Vec Nat) 9 (by decide)).1).trans
      (by decide),
   (claim_C7_emplaceBack_strong_guarantee (⟨[some 7], 1⟩ : Vec Nat) 9 (by decide)).2.1,
   (claim_C7_emplaceBack_strong_guarantee (⟨[some 7], 1⟩ : Vec Nat) 9 (by decide)).2.2.2⟩

/-- Claim C8: during an in-place (non-reallocating, `size < capacity`) insert
at a position `pos` strictly before the end, an `Emplace` whose constructor
argument is a reference to the vector's own element at a lower index `j < pos`
produces the sequence with the argument's call-time value `v[j]` at index
`pos`: the value is captured into a temporary and is not corrupted by the
right-shift of `[pos, size)`. -/
theorem claim_C8_emplace_self_alias (v : Vec α) (pos j : Nat) (hj : j < pos)
    (h1 : pos < v.size) (h2 : v.size < capacity v) :
    elems (EmplaceSelfRef v pos j).1
      = (elems v).take pos ++ v.data.getD j none :: (elems v).drop pos :=
  elems_EmplaceSelfRef v pos j hj h1 h2

/-- Witness for C8: `[10, 20, 30]` with capacity 4, emplacing at position 2
a reference to element 0 yields `[10, 20, 10, 30]` — the value 10 is placed
at index 2. -/
theorem claim_C8_emplace_self_alias_witness :
    elems (EmplaceSelfRef (⟨[some 10, some 20, some 30, none], 3⟩ : Vec Nat) 2 0).1
      = [some 10, some 20, some 10, some 30] :=
  (claim_C8_emplace_self_alias (⟨[some 10, some 20, some 30, none], 3⟩ : Vec Nat) 2 0
    (by decide) (by decide) (by decide)).trans (by decide)

/-- Claim C10: `Emplace` (and `Insert`, which delegates to it) returns the
index that `pos` had before the call — the iterator `begin() + pos_index` —
and the newly inserted element sits at that index, in both the reallocating
and the in-place paths. -/
theorem claim_C10_emplace_returns_inserted_iterator (v : Vec α) (pos : Nat) (a : α)
    (h1 : pos ≤ v.size) (h2 : v.size ≤ capacity v) :
    (Emplace v pos a).2 = pos ∧
    (Insert v pos a).2 = pos ∧
    ((Emplace v pos a).1).data.getD pos none = some a ∧
    Insert v pos a = Emplace v pos a :=
  ⟨snd_Emplace v pos a, snd_Emplace v pos a, getD_data_Emplace v pos a h1 h2, rfl⟩

/-- Witness for C10: emplacing 9 at index 1 of the full vector `[10, 20]`
(reallocating path) and of `[10, 20]` with capacity 3 (in-place path) returns
index 1 and puts 9 there in both cases. -/
theorem claim_C10_emplace_returns_inserted_iterator_witness :
    (Emplace (⟨[some 10, some 20], 2⟩ : Vec Nat) 1 9).2 = 1 ∧
    ((Emplace (⟨[some 10, some 20], 2⟩ : Vec Nat) 1 9).1).data.getD 1 none = some 9 ∧
    ((Emplace (⟨[some 10, some 20, none], 2⟩ : Vec Nat) 1 9).1).data.getD 1 none = some 9 :=
  ⟨(claim_C10_emplace_returns_inserted_iterator (⟨[some 10, some 20], 2⟩ : Vec Nat) 1 9
      (by decide) (by decide)).1,
   (claim_C10_emplace_returns_inserted_iterator (⟨[some 10, some 20], 2⟩ : Vec Nat) 1 9
      (by decide) (by decide)).2.2.1,
   (claim_C10_emplace_returns_inserted_iterator (⟨[some 10, some 20, none], 2⟩ : Vec Nat) 1 9
      (by decide) (by decide)).2.2.1⟩

end AdvVec
